import Mathlib

/-!
Verification of the roulette-patterns simulation core.

This file gives a shallow embedding, in Lean 4, of the parts of the
repository that the specification's claims are about:

* `src/src/game/roulette.py` — the wheel (`Roulette.__init__`,
  `Roulette.spin`, `Roulette.get_number_properties`);
* `src/src/game/session.py` — the per-session loop
  (`GameSession.play_until_bankruptcy`, `GameSession._calculate_winnings`);
* `src/src/strategy/base_strategy.py` and
  `src/src/strategy/martingale.py` — the strategy state machine;
* `src/src/analysis/simulator.py` — `Simulator.run_simulations` and
  `Simulator.analyze_results`;
* `src/src/utils/simulation.py` — `RouletteSimulator.__init__` (wheel and
  paytable) and `RouletteSimulator.simulate_spin`.

Python floats are embedded as `ℚ` (every quantity handled by the claims is
a small dyadic value on which float arithmetic is exact); Python dicts with
string keys are embedded as association lists looked up with
`List.lookup`; code paths that raise (`ZeroDivisionError`) are embedded
with `Option`.
-/

namespace RoulettePatterns

/-! ## Embedding of `src/src/game/roulette.py` -/

/-- `Roulette.__init__`: `self.numbers = list(range(0, 37))`. -/
def rouletteNumbers : List Nat := List.range 37

/-- `Roulette.__init__`: the `self.colors` dict, in source order. -/
def colors : List (Nat × String) :=
  [(0, "green"),
   (32, "red"), (19, "red"), (21, "red"), (25, "red"), (34, "red"), (27, "red"),
   (36, "red"), (30, "red"), (23, "red"), (5, "red"), (16, "red"), (1, "red"),
   (14, "red"), (9, "red"), (18, "red"), (7, "red"), (12, "red"), (3, "red"),
   (15, "black"), (4, "black"), (2, "black"), (17, "black"), (6, "black"),
   (13, "black"), (11, "black"), (8, "black"), (10, "black"), (24, "black"),
   (33, "black"), (20, "black"), (31, "black"), (22, "black"), (29, "black"),
   (28, "black"), (35, "black"), (26, "black")]

/-- `self.colors[number]` (the lookup never misses for wheel values). -/
def colorOf (n : Nat) : String := (colors.lookup n).getD ""

/-- `self.even_numbers = [n for n in self.numbers if n != 0 and n % 2 == 0]`. -/
def even_numbers : List Nat :=
  rouletteNumbers.filter (fun n => !(n == 0) && n % 2 == 0)

/-- `self.odd_numbers = [n for n in self.numbers if n != 0 and n % 2 == 1]`. -/
def odd_numbers : List Nat :=
  rouletteNumbers.filter (fun n => !(n == 0) && n % 2 == 1)

/-- `self.streets`: the 12 street dict entries of `Roulette.__init__`. -/
def streets : List (Nat × List Nat) :=
  [(1, [1, 2, 3]), (2, [4, 5, 6]), (3, [7, 8, 9]), (4, [10, 11, 12]),
   (5, [13, 14, 15]), (6, [16, 17, 18]), (7, [19, 20, 21]), (8, [22, 23, 24]),
   (9, [25, 26, 27]), (10, [28, 29, 30]), (11, [31, 32, 33]), (12, [34, 35, 36])]

/-- `self.corners`: the 22 corner dict entries of `Roulette.__init__`.
The key component mirrors the Python tuple key. -/
def corners : List ((Nat × Nat × Nat × Nat) × List Nat) :=
  [((1,2,4,5), [1, 2, 4, 5]), ((2,3,5,6), [2, 3, 5, 6]),
   ((4,5,7,8), [4, 5, 7, 8]), ((5,6,8,9), [5, 6, 8, 9]),
   ((7,8,10,11), [7, 8, 10, 11]), ((8,9,11,12), [8, 9, 11, 12]),
   ((10,11,13,14), [10, 11, 13, 14]), ((11,12,14,15), [11, 12, 14, 15]),
   ((13,14,16,17), [13, 14, 16, 17]), ((14,15,17,18), [14, 15, 17, 18]),
   ((16,17,19,20), [16, 17, 19, 20]), ((17,18,20,21), [17, 18, 20, 21]),
   ((19,20,22,23), [19, 20, 22, 23]), ((20,21,23,24), [20, 21, 23, 24]),
   ((22,23,25,26), [22, 23, 25, 26]), ((23,24,26,27), [23, 24, 26, 27]),
   ((25,26,28,29), [25, 26, 28, 29]), ((26,27,29,30), [26, 27, 29, 30]),
   ((28,29,31,32), [28, 29, 31, 32]), ((29,30,32,33), [29, 30, 32, 33]),
   ((31,32,34,35), [31, 32, 34, 35]), ((32,33,35,36), [32, 33, 35, 36])]

/-- `Roulette._get_dozen`. -/
def getDozen (n : Nat) : Nat := if n = 0 then 0 else (n - 1) / 12 + 1

/-- `Roulette._get_column`: `number % 3 or 3` (Python `or` takes `3` when
`number % 3` is falsy, i.e. zero). -/
def getColumn (n : Nat) : Nat := if n = 0 then 0 else if n % 3 = 0 then 3 else n % 3

/-- `Roulette._get_street`. -/
def getStreet (n : Nat) : Nat := if n = 0 then 0 else (n - 1) / 3 + 1

/-- The dict returned by `Roulette.get_number_properties`. -/
structure NumberProps where
  number : Nat
  color : String
  is_even : Bool
  is_odd : Bool
  is_zero : Bool
  dozen : Nat
  column : Nat
  street : Nat
  deriving Repr, DecidableEq

/-- `Roulette.get_number_properties`. -/
def getNumberProperties (n : Nat) : NumberProps :=
  { number := n
    color := colorOf n
    is_even := even_numbers.contains n
    is_odd := odd_numbers.contains n
    is_zero := n == 0
    dozen := getDozen n
    column := getColumn n
    street := getStreet n }

/-- `Roulette.spin`: `random.choice(self.numbers)`.  `random.choice` picks a
uniformly random index into the list; the randomness is embedded as the
index being chosen, so the sample space is exactly
`{spin i | i : Fin rouletteNumbers.length}` with each slot equally
weighted. -/
def spin (i : Fin rouletteNumbers.length) : Nat := rouletteNumbers.get i

/-! ## Embedding of `src/src/utils/simulation.py` (`RouletteSimulator`) -/

/-- `RouletteSimulator.__init__` with `wheel_type == "american"`:
`self.wheel = list(range(1, 37)) + [0, 00]`.  The Python literal `00` is
the integer `0`, so the list ends with two zero entries. -/
def americanWheel : List Nat := (List.range' 1 36) ++ [0, 0]

/-- `RouletteSimulator.__init__` with `wheel_type == "european"`. -/
def europeanWheel : List Nat := (List.range' 1 36) ++ [0]

/-- `RouletteSimulator.simulate_spin`: `random.choice(self.wheel)`, again
embedded as a uniformly random index into the wheel list. -/
def simulateSpin (i : Fin americanWheel.length) : Nat := americanWheel.get i

/-- The `payout` fields of `RouletteSimulator.__init__`'s `self.bet_types`
dict, in source order: straight, split, street, corner, five, six_line,
dozen, column, red_black, odd_even, high_low. -/
def betTypesPayouts : List (String × Nat) :=
  [("straight", 35), ("split", 17), ("street", 11), ("corner", 8),
   ("five", 6), ("six_line", 5), ("dozen", 2), ("column", 2),
   ("red_black", 1), ("odd_even", 1), ("high_low", 1)]

/-! ## Claim C2 — the sample space of `Roulette.spin` -/

/-- C2 (counterexample): the claim says `Roulette.spin` samples from a list
of exactly 38 equally weighted values `0, 00, 1–36`.  In the source the
list is `list(range(0, 37))`: it has 37 entries, not 38, and contains no
second zero slot (`00`) — the value `0` occupies exactly one slot. -/
theorem C2_counterexample :
    rouletteNumbers.length = 37 ∧ ¬ rouletteNumbers.length = 38 ∧
      rouletteNumbers.count 0 = 1 := by decide

/-- C2 (amended): `Roulette.spin` samples uniformly from the 37 values
`0, 1, …, 36`: the list it chooses from contains exactly those 37 values,
each occupying exactly one equally weighted slot, and a spin never returns
any other value. -/
theorem C2_spin_sample_space :
    rouletteNumbers.length = 37 ∧
      (∀ n : Nat, n ∈ rouletteNumbers ↔ n ≤ 36) ∧
      (∀ n : Nat, n ≤ 36 → rouletteNumbers.count n = 1) ∧
      (∀ i : Fin rouletteNumbers.length, spin i ≤ 36) := by
  refine ⟨by decide, ?_, ?_, ?_⟩
  · intro n
    simp [rouletteNumbers, List.mem_range]
    omega
  · intro n hn
    have : n ∈ rouletteNumbers := by
      simp [rouletteNumbers, List.mem_range]; omega
    have hd : rouletteNumbers.Nodup := by decide
    exact List.count_eq_one_of_mem hd this
  · intro i
    have h : spin i ∈ rouletteNumbers := List.get_mem _ i.1 i.2
    have := (by
      simp [rouletteNumbers, List.mem_range] at h
      omega : spin i ≤ 36)
    exact this

/-- C2 witness: the amended theorem instantiated at value 17 and slot 5. -/
theorem C2_spin_sample_space_witness :
    ((17 : Nat) ∈ rouletteNumbers ↔ 17 ≤ 36) ∧
      rouletteNumbers.count 17 = 1 ∧
      spin ⟨5, by decide⟩ ≤ 36 :=
  ⟨C2_spin_sample_space.2.1 17,
   C2_spin_sample_space.2.2.1 17 (by norm_num),
   C2_spin_sample_space.2.2.2 ⟨5, by decide⟩⟩

/-! ## Claim C10 — the `RouletteSimulator` American wheel -/

/-- C10: the American wheel list of `RouletteSimulator.__init__` has 38
entries but only 37 distinct values: the entry written `00` equals the
integer `0`, so `0` occupies two of the 38 equally likely slots, every
number `1–36` occupies exactly one, and `simulate_spin` never returns a
value outside `0–36`. -/
theorem C10_american_wheel_double_zero :
    americanWheel.length = 38 ∧
      americanWheel.dedup.length = 37 ∧
      americanWheel.count 0 = 2 ∧
      (List.range' 1 36).all (fun n => americanWheel.count n == 1) = true ∧
      (∀ i : Fin americanWheel.length, simulateSpin i ≤ 36) := by
  refine ⟨by decide, by decide, by decide, by decide, ?_⟩
  intro i
  have h : simulateSpin i ∈ americanWheel := List.get_mem _ i.1 i.2
  have : ∀ x ∈ americanWheel, x ≤ 36 := by decide
  exact this _ h

/-! ## Embedding of `src/src/game/session.py` — `GameSession._calculate_winnings`

A Python bet dict `Dict[str, float]` is embedded as an association list;
`'k' in bets` becomes `hasBet bets k` and `bets['k']` becomes
`betAmt bets k`. -/

abbrev Bets := List (String × ℚ)

/-- `'k' in bets`. -/
def hasBet (bets : Bets) (k : String) : Bool := (bets.lookup k).isSome

/-- `bets[k]` (only evaluated under a `hasBet` guard in the source). -/
def betAmt (bets : Bets) (k : String) : ℚ := (bets.lookup k).getD 0

/-- `sum(bets.values())`. -/
def totalBet (bets : Bets) : ℚ := (bets.map Prod.snd).sum

/-- The `f'street_{street_num}'` bet key. -/
def streetKey (k : Nat) : String := "street_" ++ toString k

/-- The `f'corner_{corner_nums}'` bet key; Python formats the tuple key
`(1, 2, 4, 5)` with a comma and a space between components. -/
def cornerKey (q : Nat × Nat × Nat × Nat) : String :=
  "corner_(" ++ toString q.1 ++ ", " ++ toString q.2.1 ++ ", " ++
    toString q.2.2.1 ++ ", " ++ toString q.2.2.2 ++ ")"

/-- `GameSession._calculate_winnings`: the sequential accumulation of the
source, one addend per `if` statement, the street and corner dict loops as
folds, and finally `winnings - total_bet`. -/
def calculateWinnings (bets : Bets) (p : NumberProps) : ℚ :=
  ((if hasBet bets "red" && (p.color == "red") then betAmt bets "red" * 2 else 0)
    + (if hasBet bets "black" && (p.color == "black") then betAmt bets "black" * 2 else 0)
    + (if hasBet bets "zero" && p.is_zero then betAmt bets "zero" * 36 else 0)
    + (if hasBet bets "even" && p.is_even then betAmt bets "even" * 2 else 0)
    + (if hasBet bets "odd" && p.is_odd then betAmt bets "odd" * 2 else 0)
    + (if hasBet bets "first_dozen" && (p.dozen == 1) then betAmt bets "first_dozen" * 3 else 0)
    + (if hasBet bets "second_dozen" && (p.dozen == 2) then betAmt bets "second_dozen" * 3 else 0)
    + (if hasBet bets "third_dozen" && (p.dozen == 3) then betAmt bets "third_dozen" * 3 else 0)
    + (if hasBet bets "first_column" && (p.column == 1) then betAmt bets "first_column" * 3 else 0)
    + (if hasBet bets "second_column" && (p.column == 2) then betAmt bets "second_column" * 3 else 0)
    + (if hasBet bets "third_column" && (p.column == 3) then betAmt bets "third_column" * 3 else 0)
    + streets.foldl (fun acc kv =>
        acc + (if hasBet bets (streetKey kv.1) && kv.2.contains p.number
               then betAmt bets (streetKey kv.1) * 12 else 0)) 0
    + corners.foldl (fun acc kv =>
        acc + (if hasBet bets (cornerKey kv.1) && kv.2.contains p.number
               then betAmt bets (cornerKey kv.1) * 9 else 0)) 0)
    - totalBet bets

/-- `self.red_numbers = [n for n, color in self.colors.items() if color == 'red']`. -/
def red_numbers : List Nat := (colors.filter (fun p => p.2 == "red")).map Prod.fst

/-- `self.black_numbers = [n for n, color in self.colors.items() if color == 'black']`. -/
def black_numbers : List Nat := (colors.filter (fun p => p.2 == "black")).map Prod.fst

/-! ### The spec-side paytable

`specOddsPayout` follows the specification's words for `resolve`:
"computes payout per bet category using standard American-roulette odds —
straight 35:1, street 11:1, corner 8:1, dozen/column 2:1, even-money
(color/parity) 1:1"; a winning category is paid its stake times
(odds + 1) gross, so that `payout − total_stake` nets the stated odds.
It is written from the spec's vocabulary (membership of the outcome in the
category's number set) to be compared with the source's
`_calculate_winnings`. -/
def specOddsPayout (bets : Bets) (n : Nat) : ℚ :=
  (if hasBet bets "red" && decide (n ∈ red_numbers) then betAmt bets "red" * (1 + 1) else 0)
    + (if hasBet bets "black" && decide (n ∈ black_numbers) then betAmt bets "black" * (1 + 1) else 0)
    + (if hasBet bets "zero" && decide (n = 0) then betAmt bets "zero" * (35 + 1) else 0)
    + (if hasBet bets "even" && decide (n ≠ 0 ∧ n % 2 = 0) then betAmt bets "even" * (1 + 1) else 0)
    + (if hasBet bets "odd" && decide (n ≠ 0 ∧ n % 2 = 1) then betAmt bets "odd" * (1 + 1) else 0)
    + (if hasBet bets "first_dozen" && decide (1 ≤ n ∧ n ≤ 12) then betAmt bets "first_dozen" * (2 + 1) else 0)
    + (if hasBet bets "second_dozen" && decide (13 ≤ n ∧ n ≤ 24) then betAmt bets "second_dozen" * (2 + 1) else 0)
    + (if hasBet bets "third_dozen" && decide (25 ≤ n ∧ n ≤ 36) then betAmt bets "third_dozen" * (2 + 1) else 0)
    + (if hasBet bets "first_column" && decide (n ≠ 0 ∧ n % 3 = 1) then betAmt bets "first_column" * (2 + 1) else 0)
    + (if hasBet bets "second_column" && decide (n ≠ 0 ∧ n % 3 = 2) then betAmt bets "second_column" * (2 + 1) else 0)
    + (if hasBet bets "third_column" && decide (n ≠ 0 ∧ n % 3 = 0) then betAmt bets "third_column" * (2 + 1) else 0)
    + (streets.map (fun kv =>
        if hasBet bets (streetKey kv.1) && decide (n ∈ kv.2)
        then betAmt bets (streetKey kv.1) * (11 + 1) else 0)).sum
    + (corners.map (fun kv =>
        if hasBet bets (cornerKey kv.1) && decide (n ∈ kv.2)
        then betAmt bets (cornerKey kv.1) * (8 + 1) else 0)).sum

/-! ### Bridge lemmas between the source's number properties and the
spec-side category predicates -/

theorem foldl_add_eq_sum_map {α : Type} (f : α → ℚ) (l : List α) (a : ℚ) :
    l.foldl (fun acc x => acc + f x) a = a + (l.map f).sum := by
  induction l generalizing a with
  | nil => simp
  | cons x xs ih => simp [ih (a + f x)]; ring

theorem color_beq_red (n : Nat) (h : n < 37) :
    ((getNumberProperties n).color == "red") = decide (n ∈ red_numbers) := by
  revert h
  revert n
  decide

theorem color_beq_black (n : Nat) (h : n < 37) :
    ((getNumberProperties n).color == "black") = decide (n ∈ black_numbers) := by
  revert h
  revert n
  decide

theorem props_is_even (n : Nat) (h : n < 37) :
    (getNumberProperties n).is_even = decide (n ≠ 0 ∧ n % 2 = 0) := by
  revert h
  revert n
  decide

theorem props_is_odd (n : Nat) (h : n < 37) :
    (getNumberProperties n).is_odd = decide (n ≠ 0 ∧ n % 2 = 1) := by
  revert h
  revert n
  decide

theorem props_is_zero (n : Nat) : (getNumberProperties n).is_zero = decide (n = 0) := by
  cases n <;> rfl

theorem props_dozen_one (n : Nat) (h : n < 37) :
    ((getNumberProperties n).dozen == 1) = decide (1 ≤ n ∧ n ≤ 12) := by
  revert h; revert n; decide

theorem props_dozen_two (n : Nat) (h : n < 37) :
    ((getNumberProperties n).dozen == 2) = decide (13 ≤ n ∧ n ≤ 24) := by
  revert h; revert n; decide

theorem props_dozen_three (n : Nat) (h : n < 37) :
    ((getNumberProperties n).dozen == 3) = decide (25 ≤ n ∧ n ≤ 36) := by
  revert h; revert n; decide

theorem props_column_one (n : Nat) (h : n < 37) :
    ((getNumberProperties n).column == 1) = decide (n ≠ 0 ∧ n % 3 = 1) := by
  revert h; revert n; decide

theorem props_column_two (n : Nat) (h : n < 37) :
    ((getNumberProperties n).column == 2) = decide (n ≠ 0 ∧ n % 3 = 2) := by
  revert h; revert n; decide

theorem props_column_three (n : Nat) (h : n < 37) :
    ((getNumberProperties n).column == 3) = decide (n ≠ 0 ∧ n % 3 = 0) := by
  revert h; revert n; decide

theorem props_number (n : Nat) : (getNumberProperties n).number = n := rfl

/-- `_calculate_winnings` decomposes as spec-paytable gross payout minus
total stake. -/
theorem calculateWinnings_eq_specOddsPayout (bets : Bets) (n : Nat) (h : n < 37) :
    calculateWinnings bets (getNumberProperties n) =
      specOddsPayout bets n - totalBet bets := by
  unfold calculateWinnings specOddsPayout
  simp only [foldl_add_eq_sum_map, zero_add]
  rw [color_beq_red n h, color_beq_black n h, props_is_zero n, props_is_even n h,
      props_is_odd n h, props_dozen_one n h, props_dozen_two n h, props_dozen_three n h,
      props_column_one n h, props_column_two n h, props_column_three n h]
  norm_num [props_number, List.contains, List.elem_eq_mem]

theorem hasBet_single (k kp : String) (c : ℚ) : hasBet [(k, c)] kp = (kp == k) := by
  cases h : kp == k <;> simp [hasBet, List.lookup, h]

theorem betAmt_single (k kp : String) (c : ℚ) :
    betAmt [(k, c)] kp = if (kp == k) then c else 0 := by
  cases h : kp == k <;> simp [betAmt, List.lookup, h]

/-! ## Claim C3 — `resolve` pays standard odds and nets payout − stake -/

/-- C3: for every bet mapping and outcome on the wheel,
`_calculate_winnings` equals the spec's standard-odds gross payout
(straight 35:1 on the `zero` category, street 11:1, corner 8:1,
dozen/column 2:1, even-money color/parity 1:1) minus the total stake of
all placed bets; when no placed category wins and some stake was placed
the result is negative; and the `bet_types` paytable of
`RouletteSimulator` carries exactly the claimed odds (straight 35, split
17, street 11, corner 8, five-number 6, six-line 5, dozen/column 2,
even-money 1).  Since the payout is exactly stake × (odds + 1) per winning
category, no category ever pays more than its stated odds. -/
theorem C3_resolve_standard_odds (bets : Bets) (n : Nat) (h : n < 37) :
    calculateWinnings bets (getNumberProperties n) =
        specOddsPayout bets n - totalBet bets ∧
      (specOddsPayout bets n = 0 → 0 < totalBet bets →
        calculateWinnings bets (getNumberProperties n) < 0) ∧
      betTypesPayouts =
        [("straight", 35), ("split", 17), ("street", 11), ("corner", 8),
         ("five", 6), ("six_line", 5), ("dozen", 2), ("column", 2),
         ("red_black", 1), ("odd_even", 1), ("high_low", 1)] := by
  refine ⟨calculateWinnings_eq_specOddsPayout bets n h, ?_, rfl⟩
  intro h0 hpos
  rw [calculateWinnings_eq_specOddsPayout bets n h, h0]
  linarith

/-- C3 witness: a red bet of stake 3 on black outcome 2 — the general
theorem applies, the payout is zero and the result `−3` is negative. -/
theorem C3_resolve_standard_odds_witness :
    calculateWinnings [("red", 3)] (getNumberProperties 2) =
        specOddsPayout [("red", 3)] 2 - totalBet [("red", 3)] ∧
      calculateWinnings [("red", 3)] (getNumberProperties 2) < 0 := by
  have h := C3_resolve_standard_odds [("red", 3)] 2 (by norm_num)
  have h0 : specOddsPayout [("red", 3)] 2 = 0 := by
    simp +decide [specOddsPayout, hasBet_single, betAmt_single, streets, corners]
  exact ⟨h.1, h.2.1 h0 (by norm_num [totalBet])⟩

/-! ## Claim C7 — unmatched bet labels -/

/-- C7 (counterexample): the claim says a bet mapping with a label matching
no supported category is rejected as an input-validation error.  In the
source `_calculate_winnings` raises nothing: on the unmatched label
`"bogus"` with stake 5 it silently returns `0 − 5 = −5`, treating the
stake as a guaranteed loss. -/
theorem C7_counterexample :
    calculateWinnings [("bogus", 5)] (getNumberProperties 1) = -5 := by
  have h := calculateWinnings_eq_specOddsPayout [("bogus", 5)] 1 (by norm_num)
  have h0 : specOddsPayout [("bogus", 5)] 1 = 0 := by
    simp +decide [specOddsPayout, hasBet_single, betAmt_single, streets, corners]
  rw [h, h0]
  norm_num [totalBet]

/-- The bet labels `_calculate_winnings` ever looks up: the eleven fixed
labels of its `if` chain plus the street and corner keys of its two dict
loops. -/
def supportedBetLabels : List String :=
  ["red", "black", "zero", "even", "odd", "first_dozen", "second_dozen",
   "third_dozen", "first_column", "second_column", "third_column"]
    ++ streets.map (fun kv => streetKey kv.1)
    ++ corners.map (fun kv => cornerKey kv.1)

theorem lookup_eq_none_of_keys_ne {β : Type} (l : List (String × β)) (k : String)
    (h : ∀ p ∈ l, p.1 ≠ k) : l.lookup k = none := by
  induction l with
  | nil => rfl
  | cons p t ih =>
    have h1 : p.1 ≠ k := h p (by simp)
    have h2 : (k == p.1) = false := by
      simp [BEq.beq]
      exact fun hk => (h1 hk.symm).elim
    simp [List.lookup, h2]
    intro a b hab hk
    exact h (a, b) (by simp [hab]) hk.symm

theorem hasBet_eq_false_of_unsupported (bets : Bets)
    (hb : ∀ p ∈ bets, p.1 ∉ supportedBetLabels) :
    ∀ k ∈ supportedBetLabels, hasBet bets k = false := by
  intro k hk
  have : bets.lookup k = none := by
    refine lookup_eq_none_of_keys_ne bets k ?_
    intro p hp hpk
    exact hb p hp (hpk ▸ hk)
  simp [hasBet, this]

/-- C7 (amended): a bet mapping none of whose labels is a supported
category is never paid, but its stakes still count in the subtracted
total: resolving it silently yields minus the total stake (a guaranteed
loss), with no validation error (the resolver is total). -/
theorem C7_unmatched_labels_silent_loss (bets : Bets) (n : Nat) (h : n < 37)
    (hb : ∀ p ∈ bets, p.1 ∉ supportedBetLabels) :
    calculateWinnings bets (getNumberProperties n) = -totalBet bets := by
  have hB := hasBet_eq_false_of_unsupported bets hb
  have hun : specOddsPayout bets n = 0 := by
    have hstreet : (streets.map (fun kv =>
        if hasBet bets (streetKey kv.1) && decide (n ∈ kv.2)
        then betAmt bets (streetKey kv.1) * (11 + 1) else 0)).sum = 0 := by
      refine List.sum_eq_zero ?_
      intro x hx
      obtain ⟨kv, hkv, rfl⟩ := List.mem_map.1 hx
      have : streetKey kv.1 ∈ supportedBetLabels :=
        List.mem_append_left _ (List.mem_append_right _ (List.mem_map_of_mem _ hkv))
      simp [hB _ this]
    have hcorner : (corners.map (fun kv =>
        if hasBet bets (cornerKey kv.1) && decide (n ∈ kv.2)
        then betAmt bets (cornerKey kv.1) * (8 + 1) else 0)).sum = 0 := by
      refine List.sum_eq_zero ?_
      intro x hx
      obtain ⟨kv, hkv, rfl⟩ := List.mem_map.1 hx
      have : cornerKey kv.1 ∈ supportedBetLabels :=
        List.mem_append_right _ (List.mem_map_of_mem _ hkv)
      simp [hB _ this]
    unfold specOddsPayout
    rw [hstreet, hcorner]
    rw [hB "red" (by decide), hB "black" (by decide), hB "zero" (by decide),
        hB "even" (by decide), hB "odd" (by decide), hB "first_dozen" (by decide),
        hB "second_dozen" (by decide), hB "third_dozen" (by decide),
        hB "first_column" (by decide), hB "second_column" (by decide),
        hB "third_column" (by decide)]
    norm_num
  rw [calculateWinnings_eq_specOddsPayout bets n h, hun]
  ring

/-- C7 witness: the unmatched single-label bet `{"bogus": 5}` at outcome 1. -/
theorem C7_unmatched_labels_silent_loss_witness :
    calculateWinnings [("bogus", 5)] (getNumberProperties 1) = -totalBet [("bogus", 5)] := by
  exact C7_unmatched_labels_silent_loss [("bogus", 5)] 1 (by norm_num) (by decide)

/-! ## Embedding of `src/src/strategy/martingale.py` (over
`src/src/strategy/base_strategy.py`) -/

/-- `MartingaleStrategy` state: the `BaseStrategy.__init__` fields used by
the claims plus the Martingale-specific fields (`bet_history` and
`spins_history` are write-only for these claims and omitted). -/
structure MartingaleState where
  initial_bankroll : ℚ
  current_bankroll : ℚ
  min_bet : ℚ
  is_bankrupt : Bool
  base_bet : ℚ
  current_bet : ℚ
  consecutive_losses : Nat
  deriving Repr, DecidableEq

/-- `MartingaleStrategy.__init__(initial_bankroll, min_bet)`. -/
def MartingaleState.start (initial_bankroll min_bet : ℚ) : MartingaleState :=
  { initial_bankroll := initial_bankroll
    current_bankroll := initial_bankroll
    min_bet := min_bet
    is_bankrupt := false
    base_bet := min_bet
    current_bet := min_bet
    consecutive_losses := 0 }

/-- The unclamped stake of `MartingaleStrategy.calculate_bet`:
`base_bet * (2 ** consecutive_losses)` after a loss streak, else
`base_bet`. -/
def martingaleRawBet (s : MartingaleState) : ℚ :=
  if s.consecutive_losses > 0
  then s.base_bet * 2 ^ s.consecutive_losses
  else s.base_bet

/-- The stake computed by `MartingaleStrategy.calculate_bet`: the raw
doubled stake, clamped to the current bankroll (`if self.current_bet >
self.current_bankroll: self.current_bet = self.current_bankroll`). -/
def martingaleBetSize (s : MartingaleState) : ℚ :=
  if martingaleRawBet s > s.current_bankroll then s.current_bankroll else martingaleRawBet s

/-- `MartingaleStrategy.calculate_bet`: returns `{'red': current_bet}` and
stores the stake in `current_bet`. -/
def martingaleCalculateBet (s : MartingaleState) : Bets × MartingaleState :=
  ([("red", martingaleBetSize s)], { s with current_bet := martingaleBetSize s })

/-- `MartingaleStrategy.update_bankroll`: the `BaseStrategy` part adds the
winnings and flips `is_bankrupt` when the bankroll falls below `min_bet`
(the flag is never cleared); the Martingale part bumps
`consecutive_losses` on `winnings < 0` and resets it otherwise. -/
def martingaleUpdateBankroll (s : MartingaleState) (winnings : ℚ) : MartingaleState :=
  let nb := s.current_bankroll + winnings
  { s with
    current_bankroll := nb
    is_bankrupt := s.is_bankrupt || decide (nb < s.min_bet)
    consecutive_losses := if winnings < 0 then s.consecutive_losses + 1 else 0 }

/-! ## Embedding of `src/src/game/session.py` — `GameSession` running a
`MartingaleStrategy` -/

/-- One entry of `GameSession.spins` (the recorded `properties` dict is
recoverable as `getNumberProperties number` and not duplicated). -/
structure SpinRecord where
  number : Nat
  bets : Bets
  winnings : ℚ
  bankroll : ℚ
  deriving Repr, DecidableEq

/-- `GameSession` state for a Martingale strategy. -/
structure MartingaleSession where
  strategy : MartingaleState
  spins : List SpinRecord
  bankroll_history : List ℚ
  wins : Nat
  losses : Nat
  total_spins : Nat
  is_active : Bool
  deriving Repr, DecidableEq

/-- `GameSession.__init__(MartingaleStrategy(initial_bankroll, min_bet))`. -/
def MartingaleSession.start (initial_bankroll min_bet : ℚ) : MartingaleSession :=
  { strategy := MartingaleState.start initial_bankroll min_bet
    spins := []
    bankroll_history := [initial_bankroll]
    wins := 0
    losses := 0
    total_spins := 0
    is_active := true }

/-- One iteration of the `while self.is_active and not
self.strategy.is_bankrupt` loop of `GameSession.play_until_bankruptcy`,
given the number the wheel produced for this tick; when the loop guard
fails the state is unchanged (the loop has exited). -/
def sessionTick (sess : MartingaleSession) (number : Nat) : MartingaleSession :=
  if sess.is_active && !sess.strategy.is_bankrupt then
    let cb := martingaleCalculateBet sess.strategy
    let w := calculateWinnings cb.1 (getNumberProperties number)
    let st2 := martingaleUpdateBankroll cb.2 w
    { strategy := st2
      spins := sess.spins ++
        [{ number := number, bets := cb.1, winnings := w, bankroll := st2.current_bankroll }]
      bankroll_history := sess.bankroll_history ++ [st2.current_bankroll]
      wins := if 0 < w then sess.wins + 1 else sess.wins
      losses := if 0 < w then sess.losses else sess.losses + 1
      total_spins := sess.total_spins + 1
      is_active := !st2.is_bankrupt }
  else sess

/-- `GameSession.play_until_bankruptcy` driven by a finite prefix of the
wheel's random draws: the loop body runs per draw while the guard holds.
The source loop has no other exit (no max-spins and no profit-target
check), so a session that never goes bankrupt consumes every draw and is
still active afterwards. -/
def playSession (sess : MartingaleSession) (numbers : List Nat) : MartingaleSession :=
  numbers.foldl sessionTick sess

/-- The dict returned by `GameSession.get_results` — exactly the source's
keys: `num_spins`, `wins`, `losses`, `win_rate`, `final_bankroll`,
`spins`, `bankroll_history`; there is no `termination_reason` and no
`initial_bankroll` key. -/
structure SessionResults where
  num_spins : Nat
  wins : Nat
  losses : Nat
  win_rate : ℚ
  final_bankroll : ℚ
  spins : List SpinRecord
  bankroll_history : List ℚ
  deriving Repr, DecidableEq

/-- `GameSession.get_results`. -/
def getResults (sess : MartingaleSession) : SessionResults :=
  { num_spins := sess.total_spins
    wins := sess.wins
    losses := sess.losses
    win_rate := if sess.total_spins > 0 then (sess.wins : ℚ) / sess.total_spins else 0
    final_bankroll := sess.strategy.current_bankroll
    spins := sess.spins
    bankroll_history := sess.bankroll_history }

/-- The single-category evaluation of `_calculate_winnings` for the
Martingale bet `{'red': c}`: win `+c` on a red outcome, lose `−c`
otherwise. -/
theorem calculateWinnings_red (c : ℚ) (n : Nat) (h : n < 37) :
    calculateWinnings [("red", c)] (getNumberProperties n) =
      if n ∈ red_numbers then c else -c := by
  rw [calculateWinnings_eq_specOddsPayout _ n h]
  have hs : specOddsPayout [("red", c)] n =
      if n ∈ red_numbers then c * 2 else 0 := by
    simp +decide [specOddsPayout, hasBet_single, betAmt_single, streets, corners]
    norm_num
  rw [hs]
  by_cases hr : n ∈ red_numbers
  · simp [hr, totalBet]
    ring
  · simp [hr, totalBet]

/-! ## Claim C5 — the stake-vs-bankroll invariant -/

/-- The strategy-generic part of the loop body of
`GameSession.play_until_bankruptcy` once `self.strategy.calculate_bet()`
has returned `bets`: the session records `bets` unchanged
(`record_bet`/the spin record), resolves it at full stake, and feeds the
whole winnings into the bankroll.  Returns (recorded bet, winnings, new
bankroll, bankrupt flag).  `sessionTick` is this same body specialized to
the Martingale strategy. -/
def sessionPlaceBet (bets : Bets) (bankroll min_bet : ℚ) (number : Nat) :
    Bets × ℚ × ℚ × Bool :=
  let w := calculateWinnings bets (getNumberProperties number)
  (bets, w, bankroll + w, decide (bankroll + w < min_bet))

/-- C5 (counterexample): the claim says the Session rejects or clamps a
proposed bet whose total stake exceeds the bankroll at tick start.  The
source session does neither: fed the bet `{'red': 15}` at bankroll 10
(stake 15 > 10), it records the bet unchanged, charges the full 15-point
stake, and drives the bankroll to −5. -/
theorem C5_counterexample :
    sessionPlaceBet [("red", 15)] 10 1 2 = ([("red", 15)], -15, -5, true) ∧
      10 < totalBet [("red", 15)] := by
  have h := calculateWinnings_red 15 2 (by norm_num)
  rw [if_neg (by decide : ¬ ((2 : Nat) ∈ red_numbers))] at h
  refine ⟨?_, by norm_num [totalBet]⟩
  simp only [sessionPlaceBet, h]
  norm_num

theorem totalBet_single (k : String) (c : ℚ) : totalBet [(k, c)] = c := by
  simp [totalBet]

theorem martingaleBetSize_le_bankroll (s : MartingaleState) :
    martingaleBetSize s ≤ s.current_bankroll := by
  unfold martingaleBetSize
  split
  · exact le_refl _
  · exact le_of_not_lt (by assumption)

/-- The bankroll history always ends with the strategy's current bankroll. -/
def histOk (sess : MartingaleSession) : Prop :=
  sess.bankroll_history.getLast? = some sess.strategy.current_bankroll

/-- Every recorded tick's stake is at most the bankroll at that tick's
start (`bankroll_history.dropLast` lists exactly the tick-start
bankrolls). -/
def stakeOk (sess : MartingaleSession) : Prop :=
  List.Forall₂ (fun (r : SpinRecord) (b : ℚ) => totalBet r.bets ≤ b)
    sess.spins sess.bankroll_history.dropLast

theorem sessionTick_preserves_stakeOk (sess : MartingaleSession) (n : Nat)
    (h1 : stakeOk sess) (h2 : histOk sess) :
    stakeOk (sessionTick sess n) ∧ histOk (sessionTick sess n) := by
  unfold sessionTick
  split
  · have hrec : totalBet [("red", martingaleBetSize sess.strategy)] ≤
        sess.strategy.current_bankroll := by
      rw [totalBet_single]
      exact martingaleBetSize_le_bankroll sess.strategy
    have hsplit := List.dropLast_append_getLast? _ (Option.mem_def.mpr h2)
    constructor
    · unfold stakeOk
      dsimp only [martingaleCalculateBet]
      rw [List.dropLast_concat, ← hsplit]
      exact List.rel_append h1 (List.Forall₂.cons hrec List.Forall₂.nil)
    · unfold histOk
      dsimp only
      rw [List.getLast?_concat]
  · exact ⟨h1, h2⟩

theorem playSession_stakeOk (sess : MartingaleSession) (numbers : List Nat)
    (h1 : stakeOk sess) (h2 : histOk sess) :
    stakeOk (playSession sess numbers) ∧ histOk (playSession sess numbers) := by
  induction numbers generalizing sess with
  | nil => exact ⟨h1, h2⟩
  | cons n ns ih =>
    have h := sessionTick_preserves_stakeOk sess n h1 h2
    exact ih (sessionTick sess n) h.1 h.2

/-- C5 (amended): the stake-vs-bankroll invariant holds for every session
run with `MartingaleStrategy` — at every recorded tick the total stake of
the placed bet is at most the bankroll at that tick's start — because the
*strategy* clamps its own stake to the bankroll; the Session itself (see
the counterexample) performs no rejection or clamping. -/
theorem C5_martingale_stake_invariant (ib mb : ℚ) (numbers : List Nat) :
    List.Forall₂ (fun (r : SpinRecord) (b : ℚ) => totalBet r.bets ≤ b)
      (playSession (MartingaleSession.start ib mb) numbers).spins
      (playSession (MartingaleSession.start ib mb) numbers).bankroll_history.dropLast :=
  (playSession_stakeOk (MartingaleSession.start ib mb) numbers
    (List.Forall₂.nil) rfl).1

/-! ## Claim C6 — the Martingale progression -/

theorem martingaleRawBet_pos (s : MartingaleState) (h0 : 0 < s.base_bet) :
    0 < martingaleRawBet s := by
  unfold martingaleRawBet
  split
  · positivity
  · exact h0

theorem martingaleBetSize_pos (s : MartingaleState) (h0 : 0 < s.base_bet)
    (hle : s.base_bet ≤ s.current_bankroll) :
    0 < martingaleBetSize s := by
  unfold martingaleBetSize
  split
  · linarith
  · exact martingaleRawBet_pos s h0

/-- After a winning tick, `consecutive_losses` resets and the next
calculated stake is the base bet again. -/
theorem sessionTick_win_resets (sess : MartingaleSession) (n : Nat)
    (hA : sess.is_active = true) (hB : sess.strategy.is_bankrupt = false)
    (h0 : 0 < sess.strategy.base_bet)
    (hle : sess.strategy.base_bet ≤ sess.strategy.current_bankroll)
    (hn : n < 37) (hr : n ∈ red_numbers) :
    (sessionTick sess n).strategy.consecutive_losses = 0 ∧
      martingaleBetSize (sessionTick sess n).strategy = sess.strategy.base_bet := by
  have hguard : (sess.is_active && !sess.strategy.is_bankrupt) = true := by
    simp [hA, hB]
  have hw : calculateWinnings [("red", martingaleBetSize sess.strategy)]
      (getNumberProperties n) = martingaleBetSize sess.strategy := by
    rw [calculateWinnings_red _ n hn, if_pos hr]
  have hc : 0 < martingaleBetSize sess.strategy := martingaleBetSize_pos _ h0 hle
  have hstrat : (sessionTick sess n).strategy =
      martingaleUpdateBankroll { sess.strategy with
          current_bet := martingaleBetSize sess.strategy }
        (martingaleBetSize sess.strategy) := by
    simp [sessionTick, hguard, martingaleCalculateBet, hw]
  have hnotneg : ¬ (martingaleBetSize sess.strategy < 0) := by linarith
  have hl2 : (sessionTick sess n).strategy.consecutive_losses = 0 := by
    rw [hstrat]
    simp [martingaleUpdateBankroll, hnotneg]
  have hb2 : (sessionTick sess n).strategy.base_bet = sess.strategy.base_bet := by
    rw [hstrat]
    simp [martingaleUpdateBankroll]
  have hbk2 : (sessionTick sess n).strategy.current_bankroll =
      sess.strategy.current_bankroll + martingaleBetSize sess.strategy := by
    rw [hstrat]
    simp [martingaleUpdateBankroll]
  have hraw2 : martingaleRawBet (sessionTick sess n).strategy = sess.strategy.base_bet := by
    unfold martingaleRawBet
    rw [hl2, hb2]
    simp
  refine ⟨hl2, ?_⟩
  unfold martingaleBetSize
  rw [hraw2, hbk2, if_neg (not_lt.mpr (by linarith))]

/-- After a losing tick whose stake was not clamped, if the next raw stake
fits in the remaining bankroll (the claim's "until capped") the next
calculated stake is exactly double the previous one, in particular
strictly greater. -/
theorem sessionTick_loss_doubles (sess : MartingaleSession) (n : Nat)
    (hA : sess.is_active = true) (hB : sess.strategy.is_bankrupt = false)
    (h0 : 0 < sess.strategy.base_bet)
    (hn : n < 37) (hnr : n ∉ red_numbers)
    (hunc : martingaleRawBet sess.strategy ≤ sess.strategy.current_bankroll)
    (hnext : martingaleRawBet (sessionTick sess n).strategy ≤
      (sessionTick sess n).strategy.current_bankroll) :
    martingaleBetSize (sessionTick sess n).strategy =
        2 * martingaleBetSize sess.strategy ∧
      martingaleBetSize sess.strategy <
        martingaleBetSize (sessionTick sess n).strategy := by
  have hguard : (sess.is_active && !sess.strategy.is_bankrupt) = true := by
    simp [hA, hB]
  have hc : martingaleBetSize sess.strategy = martingaleRawBet sess.strategy := by
    unfold martingaleBetSize
    rw [if_neg (not_lt.mpr hunc)]
  have hraw : 0 < martingaleRawBet sess.strategy := martingaleRawBet_pos _ h0
  have hw : calculateWinnings [("red", martingaleBetSize sess.strategy)]
      (getNumberProperties n) = -martingaleBetSize sess.strategy := by
    rw [calculateWinnings_red _ n hn, if_neg hnr]
  have hstrat : (sessionTick sess n).strategy =
      martingaleUpdateBankroll { sess.strategy with
          current_bet := martingaleBetSize sess.strategy }
        (-martingaleBetSize sess.strategy) := by
    simp [sessionTick, hguard, martingaleCalculateBet, hw]
  have hneg : (-martingaleBetSize sess.strategy < 0) := by
    rw [hc]; linarith
  have hloss2 : (sessionTick sess n).strategy.consecutive_losses =
      sess.strategy.consecutive_losses + 1 := by
    rw [hstrat]
    simp [martingaleUpdateBankroll, hneg]
  have hbase2 : (sessionTick sess n).strategy.base_bet = sess.strategy.base_bet := by
    rw [hstrat]
    simp [martingaleUpdateBankroll]
  have hraw2 : martingaleRawBet (sessionTick sess n).strategy =
      2 * martingaleRawBet sess.strategy := by
    unfold martingaleRawBet
    rw [hloss2, hbase2]
    rcases Nat.eq_zero_or_pos sess.strategy.consecutive_losses with h | h
    · rw [h]
      norm_num
      ring
    · rw [if_pos (by omega), if_pos h, pow_succ]
      ring
  have hfit : ¬ (martingaleRawBet (sessionTick sess n).strategy >
      (sessionTick sess n).strategy.current_bankroll) := not_lt.mpr hnext
  constructor
  · rw [show martingaleBetSize (sessionTick sess n).strategy =
        martingaleRawBet (sessionTick sess n).strategy by
          unfold martingaleBetSize; rw [if_neg hfit]]
    rw [hraw2, hc]
  · rw [show martingaleBetSize (sessionTick sess n).strategy =
        martingaleRawBet (sessionTick sess n).strategy by
          unfold martingaleBetSize; rw [if_neg hfit]]
    rw [hraw2, hc]
    linarith

/-- C6: with `initial_bankroll = 100`, `min_bet = 1` and the outcome
sequence six blacks (2) then one red (1), the Martingale session stakes
1, 2, 4, 8, 16, 32 on the first six ticks and 37 on the seventh — the raw
64 exceeds the remaining bankroll 37 and is clamped to it — and after the
winning seventh tick the next calculated stake is the base bet 1 again.
In general, after a winning tick the progression resets to the base bet,
and after a losing tick the next stake is exactly doubled, hence strictly
greater, until capped by the bankroll clamp or reset by a win. -/
theorem C6_martingale_doubling :
    (((playSession (MartingaleSession.start 100 1) [2, 2, 2, 2, 2, 2, 1]).spins.map
        (fun r => totalBet r.bets)) = [1, 2, 4, 8, 16, 32, 37]) ∧
      martingaleBetSize (playSession (MartingaleSession.start 100 1)
        [2, 2, 2, 2, 2, 2, 1]).strategy = 1 ∧
      (∀ (sess : MartingaleSession) (n : Nat),
        sess.is_active = true → sess.strategy.is_bankrupt = false →
        0 < sess.strategy.base_bet →
        sess.strategy.base_bet ≤ sess.strategy.current_bankroll →
        n < 37 → n ∈ red_numbers →
        (sessionTick sess n).strategy.consecutive_losses = 0 ∧
          martingaleBetSize (sessionTick sess n).strategy = sess.strategy.base_bet) ∧
      (∀ (sess : MartingaleSession) (n : Nat),
        sess.is_active = true → sess.strategy.is_bankrupt = false →
        0 < sess.strategy.base_bet →
        n < 37 → n ∉ red_numbers →
        martingaleRawBet sess.strategy ≤ sess.strategy.current_bankroll →
        martingaleRawBet (sessionTick sess n).strategy ≤
          (sessionTick sess n).strategy.current_bankroll →
        martingaleBetSize (sessionTick sess n).strategy =
            2 * martingaleBetSize sess.strategy ∧
          martingaleBetSize sess.strategy <
            martingaleBetSize (sessionTick sess n).strategy) := by
  have h2 : ¬ ((2 : Nat) ∈ red_numbers) := by decide
  have h1 : (1 : Nat) ∈ red_numbers := by decide
  refine ⟨?_, ?_, sessionTick_win_resets, sessionTick_loss_doubles⟩
  · norm_num [playSession, sessionTick, martingaleCalculateBet, martingaleBetSize,
      martingaleRawBet, martingaleUpdateBankroll, calculateWinnings_red,
      MartingaleSession.start, MartingaleState.start, totalBet, h1, h2]
  · norm_num [playSession, sessionTick, martingaleCalculateBet, martingaleBetSize,
      martingaleRawBet, martingaleUpdateBankroll, calculateWinnings_red,
      MartingaleSession.start, MartingaleState.start, totalBet, h1, h2]

/-- C6 witness: the reset branch at the fresh 100/1 session on red outcome
1, and the doubling branch at the same session on black outcome 2 (next
stake 2 = 2·1 > 1). -/
theorem C6_martingale_doubling_witness :
    ((sessionTick (MartingaleSession.start 100 1) 1).strategy.consecutive_losses = 0 ∧
      martingaleBetSize (sessionTick (MartingaleSession.start 100 1) 1).strategy =
        (MartingaleSession.start 100 1).strategy.base_bet) ∧
    (martingaleBetSize (sessionTick (MartingaleSession.start 100 1) 2).strategy =
        2 * martingaleBetSize (MartingaleSession.start 100 1).strategy ∧
      martingaleBetSize (MartingaleSession.start 100 1).strategy <
        martingaleBetSize (sessionTick (MartingaleSession.start 100 1) 2).strategy) := by
  have h2 : ¬ ((2 : Nat) ∈ red_numbers) := by decide
  have h1 : (1 : Nat) ∈ red_numbers := by decide
  constructor
  · exact C6_martingale_doubling.2.2.1 (MartingaleSession.start 100 1) 1
      rfl rfl (by norm_num [MartingaleSession.start, MartingaleState.start])
      (by norm_num [MartingaleSession.start, MartingaleState.start])
      (by norm_num) h1
  · refine C6_martingale_doubling.2.2.2 (MartingaleSession.start 100 1) 2
      rfl rfl (by norm_num [MartingaleSession.start, MartingaleState.start])
      (by norm_num) h2
      (by norm_num [MartingaleSession.start, MartingaleState.start, martingaleRawBet])
      ?_
    norm_num [sessionTick, martingaleCalculateBet, martingaleBetSize,
      martingaleRawBet, martingaleUpdateBankroll, calculateWinnings_red,
      MartingaleSession.start, MartingaleState.start, h2]

/-! ## Claim C1 — session termination -/

theorem allRed_run (k : Nat) (sess : MartingaleSession)
    (hA : sess.is_active = true) (hB : sess.strategy.is_bankrupt = false)
    (hbase : sess.strategy.base_bet = 1) (hmin : sess.strategy.min_bet = 1)
    (hloss : sess.strategy.consecutive_losses = 0)
    (hbk : 1 ≤ sess.strategy.current_bankroll) :
    (playSession sess (List.replicate k 1)).is_active = true ∧
      (playSession sess (List.replicate k 1)).total_spins = sess.total_spins + k ∧
      (playSession sess (List.replicate k 1)).strategy.current_bankroll =
        sess.strategy.current_bankroll + k := by
  induction k generalizing sess with
  | zero => simp [playSession, hA]
  | succ k ih =>
    have hguard : (sess.is_active && !sess.strategy.is_bankrupt) = true := by
      simp [hA, hB]
    have hsize : martingaleBetSize sess.strategy = 1 := by
      unfold martingaleBetSize martingaleRawBet
      rw [hloss, hbase]
      simp only [gt_iff_lt, lt_self_iff_false, if_false]
      rw [if_neg (not_lt.mpr hbk)]
    have hw : calculateWinnings [("red", (1 : ℚ))] (getNumberProperties 1) = 1 := by
      rw [calculateWinnings_red 1 1 (by norm_num), if_pos (by decide)]
    have hstrat : (sessionTick sess 1).strategy =
        martingaleUpdateBankroll { sess.strategy with current_bet := 1 } 1 := by
      simp [sessionTick, hguard, martingaleCalculateBet, hsize, hw]
    have hnb : ¬ (sess.strategy.current_bankroll + 1 < sess.strategy.min_bet) := by
      rw [hmin]
      linarith
    have hB2 : (sessionTick sess 1).strategy.is_bankrupt = false := by
      rw [hstrat]
      simp [martingaleUpdateBankroll, hB, hnb]
    have hA2 : (sessionTick sess 1).is_active = true := by
      simp [sessionTick, hguard, martingaleCalculateBet, hsize, hw]
      have := hB2
      simp [sessionTick, hguard, martingaleCalculateBet, hsize, hw] at this
      simp [this]
    have hbase2 : (sessionTick sess 1).strategy.base_bet = 1 := by
      rw [hstrat]
      simpa [martingaleUpdateBankroll] using hbase
    have hmin2 : (sessionTick sess 1).strategy.min_bet = 1 := by
      rw [hstrat]
      simpa [martingaleUpdateBankroll] using hmin
    have hloss2 : (sessionTick sess 1).strategy.consecutive_losses = 0 := by
      rw [hstrat]
      norm_num [martingaleUpdateBankroll]
    have hbk2 : (sessionTick sess 1).strategy.current_bankroll =
        sess.strategy.current_bankroll + 1 := by
      rw [hstrat]
      simp [martingaleUpdateBankroll]
    have htot2 : (sessionTick sess 1).total_spins = sess.total_spins + 1 := by
      simp [sessionTick, hguard]
    have hstep : playSession sess (List.replicate (k + 1) 1) =
        playSession (sessionTick sess 1) (List.replicate k 1) := by
      rw [List.replicate_succ]
      rfl
    rw [hstep]
    obtain ⟨e1, e2, e3⟩ := ih (sessionTick sess 1) hA2 hB2 hbase2 hmin2 hloss2
      (by rw [hbk2]; linarith)
    refine ⟨e1, ?_, ?_⟩
    · rw [e2, htot2]
      omega
    · rw [e3, hbk2]
      push_cast
      ring

/-- C1 (code evaluation at the failing input): the claim says every
session terminates within `max_spins` ticks in one of three terminal
states and reports a `termination_reason`.  The source `GameSession` takes
no `max_spins` or `profit_target_percentage` (although
`Simulator.run_simulations` passes both as keyword arguments) and its loop
exits only on bankruptcy: on the all-red outcome sequence the Martingale
session with bankroll 100 and min bet 1 is still active after `k` ticks
for *every* `k` — in particular after 1001 > `max_spins = 1000` ticks —
with bankroll `100 + k` (far past any profit target), and `get_results`
(see `SessionResults`) has no `termination_reason` field at all. -/
theorem C1_session_ignores_max_spins (k : Nat) :
    (playSession (MartingaleSession.start 100 1) (List.replicate k 1)).is_active = true ∧
      (playSession (MartingaleSession.start 100 1) (List.replicate k 1)).total_spins = k ∧
      (playSession (MartingaleSession.start 100 1)
          (List.replicate k 1)).strategy.current_bankroll = 100 + k := by
  have h := allRed_run k (MartingaleSession.start 100 1) rfl rfl rfl rfl rfl
    (by norm_num [MartingaleSession.start, MartingaleState.start])
  simpa [MartingaleSession.start, MartingaleState.start] using h

/-! ## Embedding of `src/src/analysis/simulator.py` -/

/-- The per-session result dict fields that `Simulator.analyze_results`
reads (`num_spins`, `wins`, `termination_reason`, `final_bankroll`,
`initial_bankroll`).  Note that the `GameSession.get_results` of this
source tree produces no `termination_reason` or `initial_bankroll` key —
see C1. -/
structure SessionRecord where
  num_spins : Nat
  wins : Nat
  termination_reason : String
  final_bankroll : ℚ
  initial_bankroll : ℚ
  deriving Repr, DecidableEq, Inhabited

/-- The per-strategy entry of the dict built by
`Simulator.analyze_results`. -/
structure StrategyAnalysis where
  success_rate : ℚ
  win_rate : ℚ
  avg_profit_loss : ℚ
  max_profit : ℚ
  max_loss : ℚ
  avg_spins : ℚ
  bankruptcy_count : Nat
  max_spins_count : Nat
  profit_target_count : Nat
  deriving Repr, DecidableEq

/-- Python's `max` over a nonempty list (`analyzeSessions` only applies it
when `sessions` is nonempty, matching the source where the empty case has
already raised). -/
def pyMax (l : List ℚ) : ℚ :=
  match l with
  | [] => 0
  | x :: xs => xs.foldl max x

/-- Python's `min` over a nonempty list. -/
def pyMin (l : List ℚ) : ℚ :=
  match l with
  | [] => 0
  | x :: xs => xs.foldl min x

/-- The per-strategy body of `Simulator.analyze_results`.  The two `none`
branches embed the `ZeroDivisionError`s the source raises: at
`success_rate = successful_sessions / num_sessions` when the strategy has
zero sessions, and at `win_rates = [s['wins'] / s['num_spins'] ...]` when
some session has zero spins. -/
def analyzeSessions (sessions : List SessionRecord) : Option StrategyAnalysis :=
  if sessions.length = 0 then none
  else if sessions.any (fun s => s.num_spins == 0) then none
  else
    let num_sessions : ℚ := sessions.length
    let bankruptcy_count := sessions.countP (fun s => s.termination_reason == "bankruptcy")
    let max_spins_count := sessions.countP (fun s => s.termination_reason == "max_spins_reached")
    let profit_target_count :=
      sessions.countP (fun s => s.termination_reason == "profit_target_reached")
    let successful_sessions := profit_target_count +
      sessions.countP (fun s => s.termination_reason == "max_spins_reached" &&
        decide (s.final_bankroll > s.initial_bankroll))
    let win_rates := sessions.map (fun s => (s.wins : ℚ) / s.num_spins)
    let profits := sessions.map (fun s => s.final_bankroll - s.initial_bankroll)
    some { success_rate := (successful_sessions : ℚ) / num_sessions
           win_rate := win_rates.sum / num_sessions
           avg_profit_loss := profits.sum / num_sessions
           max_profit := pyMax profits
           max_loss := pyMin profits
           avg_spins := (sessions.map (fun s => (s.num_spins : ℚ))).sum / num_sessions
           bankruptcy_count := bankruptcy_count
           max_spins_count := max_spins_count
           profit_target_count := profit_target_count }

/-- `Simulator.analyze_results`: the per-strategy analysis over the
`{strategy_name: [SessionResult]}` dict; an exception in any strategy's
body aborts the whole call (`Option.none`). -/
def analyzeResults (results : List (String × List SessionRecord)) :
    Option (List (String × StrategyAnalysis)) :=
  results.mapM (fun p => (analyzeSessions p.2).map (fun a => (p.1, a)))

/-- `Simulator.run_simulations`: for each strategy, run `num_simulations`
fresh sessions and collect their results.  The per-iteration body
(construct a fresh strategy instance, run a `GameSession`, take
`get_results`) is abstracted as `runOne`; in this source tree that body
would raise `TypeError` on every iteration — `run_simulations` passes
`max_spins` and `profit_target_percentage` keywords that
`GameSession.__init__` does not accept (see C1) — and with
`num_simulations = 0` the body never runs, so the function returns
`{name: []}` for each strategy regardless of `runOne`. -/
def runSimulations (strategyNames : List String) (numSimulations : Nat)
    (runOne : String → Nat → SessionRecord) : List (String × List SessionRecord) :=
  strategyNames.map (fun nm => (nm, (List.range numSimulations).map (runOne nm)))

/-! ## Claim C4 — `analyze_results` rates -/

/-- C4 (counterexample): the claim says `win_rate` is total wins over
total spins pooled across sessions.  On two sessions with (1 spin, 1 win)
and (3 spins, 0 wins), `analyze_results` computes the mean of per-session
rates `(1/1 + 0/3) / 2 = 1/2`, while the pooled rate is
`(1+0)/(1+3) = 1/4 ≠ 1/2`. -/
theorem C4_counterexample :
    (analyzeSessions
        [{ num_spins := 1, wins := 1, termination_reason := "profit_target_reached",
           final_bankroll := 150, initial_bankroll := 100 },
         { num_spins := 3, wins := 0, termination_reason := "bankruptcy",
           final_bankroll := 0, initial_bankroll := 100 }]).map
        (fun a => a.win_rate) = some (1 / 2) ∧
      ((1 + 0 : ℚ) / ((1 : ℚ) + 3)) = 1 / 4 ∧ ¬ ((1 : ℚ) / 2 = 1 / 4) := by
  refine ⟨?_, by norm_num, by norm_num⟩
  norm_num [analyzeSessions]

theorem countP_disjoint_le {α : Type} (l : List α) (p q : α → Bool)
    (h : ∀ x ∈ l, ¬(p x = true ∧ q x = true)) :
    l.countP p + l.countP q ≤ l.length := by
  induction l with
  | nil => simp
  | cons x xs ih =>
    have hx := h x (by simp)
    have hxs := ih (fun y hy => h y (by simp [hy]))
    rw [List.countP_cons, List.countP_cons, List.length_cons]
    cases hp : p x <;> cases hq : q x <;> simp_all <;> omega

/-- C4 (amended): for every strategy with at least one recorded session,
each with at least one spin and `wins ≤ num_spins`, `analyze_results`
succeeds; its `win_rate` is the *mean of the per-session win rates*
`wins_i / num_spins_i` (not the pooled ratio — see the counterexample);
its `success_rate` is the fraction of sessions ending
`profit_target_reached` plus those ending `max_spins_reached` with
`final_bankroll > initial_bankroll`; and both lie in `[0, 1]`. -/
theorem C4_analyze_results_rates (sessions : List SessionRecord)
    (hne : sessions ≠ [])
    (hspins : ∀ s ∈ sessions, 0 < s.num_spins)
    (hwins : ∀ s ∈ sessions, s.wins ≤ s.num_spins) :
    ∃ a, analyzeSessions sessions = some a ∧
      a.win_rate =
        (sessions.map (fun s => (s.wins : ℚ) / s.num_spins)).sum / sessions.length ∧
      0 ≤ a.win_rate ∧ a.win_rate ≤ 1 ∧
      a.success_rate =
        (((sessions.countP (fun s => s.termination_reason == "profit_target_reached") +
          sessions.countP (fun s => s.termination_reason == "max_spins_reached" &&
            decide (s.final_bankroll > s.initial_bankroll))) : Nat) : ℚ) /
          sessions.length ∧
      0 ≤ a.success_rate ∧ a.success_rate ≤ 1 := by
  have hlen : sessions.length ≠ 0 := fun h => hne (List.length_eq_zero.mp h)
  have hlenpos : (0 : ℚ) < sessions.length := by
    have := Nat.pos_of_ne_zero hlen
    exact_mod_cast this
  have hany : sessions.any (fun s => s.num_spins == 0) = false := by
    rw [List.any_eq_false]
    intro s hs
    simpa using Nat.pos_iff_ne_zero.mp (hspins s hs)
  rw [analyzeSessions, if_neg hlen, if_neg (by simp [hany])]
  refine ⟨_, rfl, rfl, ?_, ?_, rfl, ?_, ?_⟩
  · refine div_nonneg ?_ (le_of_lt hlenpos)
    refine List.sum_nonneg ?_
    intro x hx
    obtain ⟨s, _, rfl⟩ := List.mem_map.1 hx
    positivity
  · rw [div_le_one hlenpos]
    have hbd : ∀ x ∈ sessions.map (fun s => (s.wins : ℚ) / s.num_spins), x ≤ 1 := by
      intro x hx
      obtain ⟨s, hs, rfl⟩ := List.mem_map.1 hx
      have hn : (0 : ℚ) < s.num_spins := by exact_mod_cast hspins s hs
      rw [div_le_one hn]
      exact_mod_cast hwins s hs
    calc (sessions.map (fun s => (s.wins : ℚ) / s.num_spins)).sum
        ≤ (sessions.map (fun s => (s.wins : ℚ) / s.num_spins)).length • (1 : ℚ) :=
          List.sum_le_card_nsmul _ 1 hbd
      _ = sessions.length := by
          rw [List.length_map, nsmul_eq_mul, mul_one]
  · exact div_nonneg (by positivity) (le_of_lt hlenpos)
  · rw [div_le_one hlenpos]
    have hdisj : ∀ s ∈ sessions,
        ¬((s.termination_reason == "profit_target_reached") = true ∧
          (s.termination_reason == "max_spins_reached" &&
            decide (s.final_bankroll > s.initial_bankroll)) = true) := by
      intro s _ ⟨hp, hq⟩
      have h1 : s.termination_reason = "profit_target_reached" := by
        simpa using hp
      have h2 : s.termination_reason = "max_spins_reached" := by
        have hq2 := (Bool.and_eq_true _ _) ▸ hq
        simpa using hq2.1
      rw [h1] at h2
      exact absurd h2 (by decide)
    have hle := countP_disjoint_le sessions _ _ hdisj
    exact_mod_cast hle

/-- C4 witness: the general theorem applied to a single
`profit_target_reached` session of 2 spins and 1 win. -/
theorem C4_analyze_results_rates_witness :
    ∃ a, analyzeSessions
        [{ num_spins := 2, wins := 1, termination_reason := "profit_target_reached",
           final_bankroll := 150, initial_bankroll := 100 }] = some a ∧
      a.win_rate =
        (([{ num_spins := 2, wins := 1, termination_reason := "profit_target_reached",
             final_bankroll := 150, initial_bankroll := 100 }] :
            List SessionRecord).map (fun s => (s.wins : ℚ) / s.num_spins)).sum /
          ([{ num_spins := 2, wins := 1, termination_reason := "profit_target_reached",
              final_bankroll := 150, initial_bankroll := 100 }] :
            List SessionRecord).length ∧
      0 ≤ a.win_rate ∧ a.win_rate ≤ 1 ∧
      a.success_rate =
        (((([{ num_spins := 2, wins := 1, termination_reason := "profit_target_reached",
               final_bankroll := 150, initial_bankroll := 100 }] :
             List SessionRecord).countP
               (fun s => s.termination_reason == "profit_target_reached") +
           ([{ num_spins := 2, wins := 1, termination_reason := "profit_target_reached",
               final_bankroll := 150, initial_bankroll := 100 }] :
             List SessionRecord).countP
               (fun s => s.termination_reason == "max_spins_reached" &&
                 decide (s.final_bankroll > s.initial_bankroll))) : Nat) : ℚ) /
          ([{ num_spins := 2, wins := 1, termination_reason := "profit_target_reached",
              final_bankroll := 150, initial_bankroll := 100 }] :
            List SessionRecord).length ∧
      0 ≤ a.success_rate ∧ a.success_rate ≤ 1 :=
  C4_analyze_results_rates _ (by simp) (by decide) (by decide)

/-! ## Claim C8 — zero simulations -/

/-- C8 (counterexample): the claim says that with `num_simulations == 0`
the pipeline returns empty aggregates without raising.  `run_simulations`
does return `{name: []}`, but `analyze_results` applied to that dict
raises `ZeroDivisionError` (`success_rate = successful_sessions /
num_sessions` with `num_sessions = 0`), embedded here as `none`. -/
theorem C8_counterexample :
    runSimulations ["MartingaleStrategy"] 0 (fun _ _ => default) =
        [("MartingaleStrategy", [])] ∧
      analyzeResults [("MartingaleStrategy", [])] = none := by
  exact ⟨rfl, rfl⟩

/-- C8 (amended): with `num_simulations = 0`, `run_simulations` returns an
empty session list for every strategy (the per-iteration body never runs),
but `analyze_results` on those results does *not* return empty aggregates:
as soon as there is at least one strategy it fails with a
division-by-zero error (`none`) on the empty session list. -/
theorem C8_zero_simulations (strategyNames : List String)
    (runOne : String → Nat → SessionRecord) :
    runSimulations strategyNames 0 runOne =
        strategyNames.map (fun nm => (nm, [])) ∧
      (strategyNames ≠ [] →
        analyzeResults (runSimulations strategyNames 0 runOne) = none) := by
  have h1 : runSimulations strategyNames 0 runOne =
      strategyNames.map (fun nm => (nm, [])) := by
    simp [runSimulations]
  refine ⟨h1, ?_⟩
  intro hne
  rw [h1]
  cases strategyNames with
  | nil => exact absurd rfl hne
  | cons nm rest =>
    show ((nm, ([] : List SessionRecord)) :: rest.map (fun nm => (nm, []))).mapM
      (fun p => (analyzeSessions p.2).map (fun a => (p.1, a))) = none
    rw [List.mapM_cons]
    rfl

/-- C8 witness: one strategy name, zero simulations. -/
theorem C8_zero_simulations_witness :
    runSimulations ["MartingaleStrategy"] 0 (fun _ _ => default) =
        [("MartingaleStrategy", [])] ∧
      analyzeResults (runSimulations ["MartingaleStrategy"] 0 (fun _ _ => default)) =
        none := by
  have h := C8_zero_simulations ["MartingaleStrategy"] (fun _ _ => default)
  exact ⟨h.1, h.2 (by simp)⟩

/-! ## Claim C9 — determinism and per-session seedability -/

/-- A concrete global-PRNG stream: draw `t` is slot `t % 37`. -/
def gMod : Nat → Fin rouletteNumbers.length := fun t =>
  ⟨t % 37, by
    have h : rouletteNumbers.length = 37 := by decide
    rw [h]
    exact Nat.mod_lt _ (by norm_num)⟩

/-- A second concrete stream agreeing with `gMod` at position 0 only. -/
def gSq : Nat → Fin rouletteNumbers.length := fun t =>
  ⟨(t * t + 3 * t) % 37, by
    have h : rouletteNumbers.length = 37 := by decide
    rw [h]
    exact Nat.mod_lt _ (by norm_num)⟩

/-- All randomness flows through the single module-global `random` PRNG:
`Roulette.spin` takes no seed and owns no generator, so the `t`-th draw of
the whole process is `spin (g t)` for one shared stream `g`, and a
session (or a second `run_simulations` call) starting after `start` draws
have been consumed sees draws `g start, g (start+1), …`. -/
def drawsFrom (g : Nat → Fin rouletteNumbers.length) (start n : Nat) : List Nat :=
  (List.range n).map (fun k => spin (g (start + k)))

/-- C9 (counterexample): the claim says two `run_simulations` calls with
the same arguments under a fixed seed give identical results, and that
sessions are independently seedable.  With the single global stream
`gMod`, an identically-parameterized one-spin Martingale session run
starting at stream position 0 sees draw 0 and ends at bankroll 99, while
the same session run second (position 1, after one draw was consumed)
sees draw 1 and ends at bankroll 101: same arguments, different results,
and no per-session seed exists anywhere in the code. -/
theorem C9_counterexample :
    drawsFrom gMod 0 1 = [0] ∧ drawsFrom gMod 1 1 = [1] ∧
      (playSession (MartingaleSession.start 100 1)
        (drawsFrom gMod 0 1)).strategy.current_bankroll = 99 ∧
      (playSession (MartingaleSession.start 100 1)
        (drawsFrom gMod 1 1)).strategy.current_bankroll = 101 ∧
      ¬ ((99 : ℚ) = 101) := by
  have hd0 : drawsFrom gMod 0 1 = [0] := by decide
  have hd1 : drawsFrom gMod 1 1 = [1] := by decide
  have h0r : ¬ ((0 : Nat) ∈ red_numbers) := by decide
  have h1r : (1 : Nat) ∈ red_numbers := by decide
  refine ⟨hd0, hd1, ?_, ?_, by norm_num⟩
  · rw [hd0]
    norm_num [playSession, sessionTick, martingaleCalculateBet, martingaleBetSize,
      martingaleRawBet, martingaleUpdateBankroll, calculateWinnings_red,
      MartingaleSession.start, MartingaleState.start, h0r]
  · rw [hd1]
    norm_num [playSession, sessionTick, martingaleCalculateBet, martingaleBetSize,
      martingaleRawBet, martingaleUpdateBankroll, calculateWinnings_red,
      MartingaleSession.start, MartingaleState.start, h1r]

/-- C9 (amended): the code is deterministic *relative to the global
stream*: two runs reading the same stream values over the consumed range
produce identical draws and an identical session; reproducibility
therefore requires restoring the one global PRNG state, and there is no
per-session seeding — a session's draws are fixed by the global position
earlier sessions left it at (see the counterexample). -/
theorem C9_determinism_modulo_stream (g gp : Nat → Fin rouletteNumbers.length)
    (start n : Nat) (h : ∀ k, k < n → g (start + k) = gp (start + k)) :
    drawsFrom g start n = drawsFrom gp start n ∧
      playSession (MartingaleSession.start 100 1) (drawsFrom g start n) =
        playSession (MartingaleSession.start 100 1) (drawsFrom gp start n) := by
  have h1 : drawsFrom g start n = drawsFrom gp start n := by
    unfold drawsFrom
    refine List.map_congr_left ?_
    intro k hk
    rw [h k (List.mem_range.1 hk)]
  exact ⟨h1, by rw [h1]⟩

/-- C9 witness: `gMod` and `gSq` agree at position 0, so the one-draw run
from position 0 coincides on both streams. -/
theorem C9_determinism_modulo_stream_witness :
    drawsFrom gMod 0 1 = drawsFrom gSq 0 1 ∧
      playSession (MartingaleSession.start 100 1) (drawsFrom gMod 0 1) =
        playSession (MartingaleSession.start 100 1) (drawsFrom gSq 0 1) :=
  C9_determinism_modulo_stream gMod gSq 0 1 (by decide)

end RoulettePatterns
